import Mathlib

/-!
# FindCare API — verification of the map-feed core (src/server.js)

Shallow embedding of the request-normalization → filter-construction →
result-transformation pipeline of `src/server.js`:

* `parseLocation` / `isZip`  — the location classifier (lines 46–58);
* `esc`                      — the HTML escaper (lines 60–67);
* `buildLim` / `buildFilter` — the `/map_feed` filter construction
  (lines 79–91, `limit` clamping and bound parameters);
* `formatItem` / `feedItems` — the feed-item formatter (lines 120–144);
* `mapFeed`                  — the response envelope, success and catch
  paths (lines 146–158).

JavaScript strings are modelled as Lean `String` (a wrapper around
`List Char`); absent/`undefined`/`null` values as `Option`. JavaScript's
falsy coercion of strings (`s || d`) is `jsOr`; of the number returned by
`parseInt` (where `NaN` and `0` are falsy) it is handled explicitly in
`buildLim`. Numbers stored in the database (`Latitude`, `Longitude`) enter
the formatter only through `String(...)`, so they are modelled by their
decimal string form.
-/

/-- Whitespace for the JS `trim()` (the ASCII part; the claims under study
never depend on non-ASCII whitespace). -/
def wsChar (c : Char) : Bool :=
  c = ' ' || c = '\t' || c = '\n' || c = '\r' || c = '\x0b' || c = '\x0c'

/-- JavaScript `trim()` on the underlying character list: drop whitespace at both ends. -/
def jsTrimData (l : List Char) : List Char :=
  ((l.dropWhile wsChar).reverse.dropWhile wsChar).reverse

/-- JavaScript `s.trim()`. -/
def jsTrim (s : String) : String := ⟨jsTrimData s.data⟩

/-- JavaScript `s || d` on a nullable string: `undefined`/`null` and the
empty string are falsy and give the default `d`. -/
def jsOr (o : Option String) (d : String) : String :=
  match o with
  | none => d
  | some s => if s = "" then d else s

/-- JavaScript `s || null` on a nullable string: collapse the empty string
to `null`. -/
def jsOrNull (o : Option String) : Option String :=
  match o with
  | some s => if s = "" then none else some s
  | none => none

/-- The `raw.split(",")` of line 54: split on every comma; an input with no
comma yields one segment, and a trailing comma yields a trailing empty
segment, exactly as in JavaScript. -/
def splitComma : List Char → List (List Char)
  | [] => [[]]
  | c :: rest =>
    match splitComma rest with
    | [] => [[c]]
    | h :: t => if c = ',' then [] :: h :: t else (c :: h) :: t

/-- The regular expression `^\d{5}(-\d{4})?$` of `isZip` (line 47), as a
decidable predicate on the character list. -/
def zipMatch (l : List Char) : Bool :=
  (l.length = 5 && l.all Char.isDigit)
    || (l.length = 10 && (l.take 5).all Char.isDigit
          && l.get? 5 = some '-' && (l.drop 6).all Char.isDigit)

/-- The `isZip` helper (lines 46–48): test the regex against the trimmed input. -/
def isZip (s : String) : Bool := zipMatch (jsTrimData s.data)

/-- The three-shaped result of `parseLocation`: `{zip5}`, `{city, state}`
or `{}` — absent keys are `none`. -/
structure ParsedLocation where
  zip5 : Option String
  city : Option String
  state : Option String
deriving DecidableEq, Repr

/-- The `parseLocation` helper (lines 50–58). `input` is `req.query.location`, which
is `undefined` or a string; `!input` is true for `undefined` and `""`.
The source splits the trimmed input on every comma, trims each segment,
and keeps the first two (`[cityPart, statePart]`); a missing second
segment destructures to `undefined`, hence the `(statePart || "")`. -/
def parseLocation (input : Option String) : ParsedLocation :=
  match input with
  | none => ⟨none, none, none⟩
  | some s =>
    if s = "" then ⟨none, none, none⟩
    else
      let raw := jsTrim s
      if isZip raw then ⟨some ⟨raw.data.take 5⟩, none, none⟩
      else
        let parts := (splitComma raw.data).map jsTrimData
        let cityPart := parts.getD 0 []
        let statePart := parts.getD 1 []
        let city : Option String :=
          if cityPart = [] then none else some ⟨cityPart⟩
        let stateChars := (statePart.map Char.toUpper).take 2
        let state : Option String :=
          if stateChars = [] then none else some ⟨stateChars⟩
        ⟨none, city, state⟩

/-- Replace every occurrence of the character `c` by the string `rep`
(the effect of `.replace(/c/g, rep)` for a single-character pattern). -/
def replAllData (c : Char) (rep : List Char) (l : List Char) : List Char :=
  l.flatMap fun x => if x = c then rep else [x]

/-- The `esc` helper (lines 60–67) on the character list: the five sequential global
replaces, `&` first. -/
def escData (l : List Char) : List Char :=
  replAllData '\'' "&#39;".data
    (replAllData '"' "&quot;".data
      (replAllData '>' "&gt;".data
        (replAllData '<' "&lt;".data
          (replAllData '&' "&amp;".data l))))

/-- The `esc` helper (lines 60–67) on strings. The source applies `String(s || "")` before
escaping, so the argument of this Lean function is the already-stringified
value. -/
def esc (s : String) : String := ⟨escData s.data⟩

/-- The per-character escaping table the five replaces amount to. -/
def escChar (c : Char) : List Char :=
  if c = '&' then "&amp;".data
  else if c = '<' then "&lt;".data
  else if c = '>' then "&gt;".data
  else if c = '"' then "&quot;".data
  else if c = '\'' then "&#39;".data
  else [c]

/-- Decimal digit value for `parseInt` (codepoint 48 is `0`). -/
def decVal (c : Char) : Option Nat :=
  if c.isDigit then some (c.toNat - 48) else none

/-- Hexadecimal digit value for `parseInt` after a `0x`/`0X` prefix,
written over codepoints: 48–57 are `0`–`9`, 97–102 are `a`–`f` (value
codepoint − 87), 65–70 are `A`–`F` (value codepoint − 55). -/
def hexVal (c : Char) : Option Nat :=
  let n := c.toNat
  if 48 ≤ n && n ≤ 57 then some (n - 48)
  else if 97 ≤ n && n ≤ 102 then some (n - 87)
  else if 65 ≤ n && n ≤ 70 then some (n - 55)
  else none

/-- Accumulate the value of a maximal run of leading digits. -/
def digitsAcc (val : Char → Option Nat) (base : Nat) (acc : Nat) :
    List Char → Nat
  | [] => acc
  | c :: rest =>
    match val c with
    | some d => digitsAcc val base (acc * base + d) rest
    | none => acc

/-- Value of the leading digit run, `none` when the first character is not
a digit (the `NaN` case). -/
def leadDigits (val : Char → Option Nat) (base : Nat) :
    List Char → Option Nat
  | [] => none
  | c :: rest =>
    match val c with
    | some d => some (digitsAcc val base d rest)
    | none => none

/-- JavaScript `parseInt(s)` with the radix argument omitted: skip leading
whitespace, take an optional sign, use base 16 after a `0x`/`0X` prefix
and base 10 otherwise, read the maximal run of leading digits and ignore
the rest; `none` is `NaN`. (JS returns a float, so values beyond 2^53
would lose precision there; the claims only exercise the clamped range, so
the exact integer model is adequate.) -/
def jsParseInt (s : String) : Option Int :=
  let t := s.data.dropWhile wsChar
  let signRest : Int × List Char :=
    match t with
    | '+' :: r => (1, r)
    | '-' :: r => (-1, r)
    | r => (1, r)
  let sign := signRest.1
  let body :=
    match signRest.2 with
    | '0' :: x :: r2 =>
      if x = 'x' || x = 'X' then leadDigits hexVal 16 r2
      else leadDigits decVal 10 (('0' : Char) :: x :: r2)
    | r => leadDigits decVal 10 r
  body.map fun n => sign * (n : Int)

/-- Line 80: `Math.max(1, Math.min(parseInt(limit) || 20, 200))`, with the
destructuring default `limit = "20"` of line 79. `parseInt(limit) || 20`
falls back to 20 both when the parse is `NaN` and when it is `0` (zero is
falsy in JavaScript). -/
def buildLim (rawLimit : Option String) : Int :=
  let limit := rawLimit.getD "20"
  let n : Int :=
    match jsParseInt limit with
    | some v => if v = 0 then 20 else v
    | none => 20
  max 1 (min n 200)

/-- The raw query of `GET /map_feed` (line 79): each parameter is absent
or a string. -/
structure RawQuery where
  q : Option String
  category : Option String
  location : Option String
  limit : Option String
deriving DecidableEq, Repr

/-- The bound parameters of lines 86–91: the FilterSpec handed to the SQL
collaborator. -/
structure FilterSpec where
  limit : Int
  category : Option String
  textQuery : Option String
  zip5 : Option String
  city : Option String
  state : Option String
deriving DecidableEq, Repr

/-- Lines 79–91: assemble the FilterSpec from the raw query. `category`
is bound as `category || null` (untrimmed); `q` as `` `%${q}%` `` when
truthy, else null; the location fields come from `parseLocation`, each
collapsed to null when falsy. -/
def buildFilter (rq : RawQuery) : FilterSpec :=
  let p := parseLocation rq.location
  { limit := buildLim rq.limit
    category := jsOrNull rq.category
    textQuery :=
      match rq.q with
      | some s => if s = "" then none else some ("%" ++ s ++ "%")
      | none => none
    zip5 := jsOrNull p.zip5
    city := jsOrNull p.city
    state := jsOrNull p.state }

/-- One row of `dbo.Providers_Geocoded` as the formatter sees it (lines
97–106): nullable text columns are `Option String`; `Latitude` and
`Longitude` are non-null by the query's WHERE clause and reach the
formatter only through `String(...)`, so they are modelled by their
decimal string form. -/
structure ProviderRecord where
  Category : Option String
  Provider_Organization_Name : Option String
  Provider_Practice_City : Option String
  Provider_Practice_State : Option String
  Provider_Practice_Zip : Option String
  Full_Address : Option String
  Latitude : String
  Longitude : String
  Healthcare_Provider_Taxonomy_Code_1 : Option String
deriving DecidableEq, Repr, Inhabited

/-- The GoodBarber feed-item contract (lines 125–143). -/
structure FeedItem where
  id : Nat
  title : String
  summary : String
  address : String
  latitude : String
  longitude : String
  type : String
  subtype : String
  pinIconUrl : String
  pinIconColor : String
  pinIconWidth : Nat
  pinIconHeight : Nat
  url : String
  thumbnail : String
  smallThumbnail : String
  largeThumbnail : String
  content : String
deriving DecidableEq, Repr, Inhabited

/-- Line 121: `r.Provider_Organization_Name || "Unnamed Facility"`. -/
def titleOf (r : ProviderRecord) : String :=
  jsOr r.Provider_Organization_Name "Unnamed Facility"

/-- Line 122: `[City, State].filter(Boolean).join(", ")`. -/
def cityStOf (r : ProviderRecord) : String :=
  String.intercalate ", "
    ([r.Provider_Practice_City, r.Provider_Practice_State].filterMap jsOrNull)

/-- Line 123: `` `${r.Category || "Healthcare Facility"}${citySt ? ` in ${citySt}` : ""}` ``. -/
def summaryOf (r : ProviderRecord) : String :=
  jsOr r.Category "Healthcare Facility"
    ++ (if cityStOf r = "" then "" else " in " ++ cityStOf r)

/-- The detail URL of lines 138 and 142, templated with `idx + 1`. -/
def detailUrl (idx : Nat) : String :=
  "https://findcare.dev/facility/" ++ toString (idx + 1)

/-- Lines 125–143: one feed item from one record, `idx` the 0-based map
index. -/
def formatItem (r : ProviderRecord) (idx : Nat) : FeedItem :=
  { id := idx + 1
    title := titleOf r
    summary := summaryOf r
    address := jsOr r.Full_Address ""
    latitude := jsTrim r.Latitude
    longitude := jsTrim r.Longitude
    type := "maps"
    subtype := "custom"
    pinIconUrl := "https://fcare.io/files/findcare_map_icon_red.png"
    pinIconColor := "#0074D9"
    pinIconWidth := 150
    pinIconHeight := 300
    url := detailUrl idx
    thumbnail := "https://findcare.dev/icons/default.png"
    smallThumbnail := "https://findcare.dev/icons/default.png"
    largeThumbnail := "https://findcare.dev/icons/default.png"
    content := "<div><strong>" ++ esc (titleOf r) ++ "</strong><br>"
      ++ esc (jsOr r.Category "") ++ " - " ++ esc (cityStOf r)
      ++ "<br><a href=\"" ++ detailUrl idx
      ++ "\" target=\"_blank\">View Details</a></div>" }

/-- The `.map((r, idx) => ...)` of line 120, index threaded explicitly. -/
def feedItemsFrom (idx : Nat) : List ProviderRecord → List FeedItem
  | [] => []
  | r :: rs => formatItem r idx :: feedItemsFrom (idx + 1) rs

/-- Line 120: items from the ordered recordset, indices starting at 0. -/
def feedItems (rs : List ProviderRecord) : List FeedItem :=
  feedItemsFrom 0 rs

/-- What the awaited query hands the handler: a recordset (line 120 guards
`result.recordset || []` against a missing one) or a thrown error whose
`message` may be absent/empty. -/
inductive QueryOutcome where
  | ok (recordset : Option (List ProviderRecord))
  | err (message : Option String)
deriving DecidableEq, Repr

/-- The two JSON shapes the handler can send: the success envelope of
lines 146–151 and the catch envelope of lines 155–158. -/
inductive MapFeedResponse where
  | success (items : List FeedItem) (next_page : Option String)
      (generated_in : String) (stat : String)
  | failure (stat : String) (message : String)
deriving DecidableEq, Repr

/-- Lines 146–158: on success, the full item list with `next_page: null`,
`generated_in: "0.01s"`, `stat: "ok"`; in the catch, `stat: "error"` and
`err.message || "Internal server error"`. -/
def mapFeed (outcome : QueryOutcome) : MapFeedResponse :=
  match outcome with
  | .ok rset => .success (feedItems (rset.getD [])) none "0.01s" "ok"
  | .err m => .failure "error" (jsOr m "Internal server error")

/-- The `generated_in` string of a response, when the shape has one. -/
def generatedIn (resp : MapFeedResponse) : Option String :=
  match resp with
  | .success _ _ g _ => some g
  | .failure _ _ => none

/-- Does `pat` occur at the start of `l`? -/
def startsWithL : List Char → List Char → Bool
  | [], _ => true
  | _ :: _, [] => false
  | p :: ps, c :: cs => p = c && startsWithL ps cs

/-- Does `pat` occur anywhere in `l` (raw substring occurrence)? -/
def containsL (pat : List Char) : List Char → Bool
  | [] => startsWithL pat []
  | c :: cs => startsWithL pat (c :: cs) || containsL pat cs

/-- No raw markup-significant character: true when the list has none of
`<`, `>`, `"`, `'`. -/
def noMarkup (l : List Char) : Bool :=
  l.all fun c => !(c = '<' || c = '>' || c = '"' || c = '\'')

/-- Split at the first comma only: the part before it, and (when a comma
exists) the whole remainder after it. -/
def splitFirstComma : List Char → List Char × Option (List Char)
  | [] => ([], none)
  | c :: rest =>
    if c = ',' then ([], some rest)
    else
      let p := splitFirstComma rest
      (c :: p.1, p.2)

/-- Modelled from the spec's words for comparison (claim C3): the input is
split on the FIRST comma; city is the trimmed left part or null; state is
the right part (trimmed) uppercased and truncated to its first 2
characters, or null if empty/absent. -/
def cityStateFirstCommaModel (s : String) : ParsedLocation :=
  let p := splitFirstComma (jsTrimData s.data)
  let cityPart := jsTrimData p.1
  let city : Option String := if cityPart = [] then none else some ⟨cityPart⟩
  let state : Option String :=
    match p.2 with
    | none => none
    | some rp =>
      let t := ((jsTrimData rp).map Char.toUpper).take 2
      if t = [] then none else some ⟨t⟩
  ⟨none, city, state⟩

/-- The split-on-every-comma description of the city/state branch, for
comparison with `parseLocation`: the trimmed input is split on every
comma, each segment trimmed, and only the first two segments are kept. -/
def cityStateSplitModel (s : String) : ParsedLocation :=
  let parts := (splitComma (jsTrimData s.data)).map jsTrimData
  let cityPart := parts.getD 0 []
  let statePart := parts.getD 1 []
  let stateChars := (statePart.map Char.toUpper).take 2
  ⟨none,
   if cityPart = [] then none else some ⟨cityPart⟩,
   if stateChars = [] then none else some ⟨stateChars⟩⟩

/-- The end-to-end example record of the spec: empty organization name,
null category, city Plano, state TX. -/
def planoRecord : ProviderRecord :=
  { Category := none
    Provider_Organization_Name := some ""
    Provider_Practice_City := some "Plano"
    Provider_Practice_State := some "TX"
    Provider_Practice_Zip := some "75023"
    Full_Address := some "100 Main St, Plano, TX 75023"
    Latitude := "33.0198"
    Longitude := "-96.6989"
    Healthcare_Provider_Taxonomy_Code_1 := none }

/-- A record whose name and category carry a script tag, to exercise the
escaping of the `content` fragment. -/
def scriptRecord : ProviderRecord :=
  { Category := some "<script>alert(2)</script>"
    Provider_Organization_Name := some "<script>alert(1)</script>"
    Provider_Practice_City := some "Austin"
    Provider_Practice_State := some "TX"
    Provider_Practice_Zip := some "73301"
    Full_Address := some "1 Elm St"
    Latitude := "30.2672"
    Longitude := "-97.7431"
    Healthcare_Provider_Taxonomy_Code_1 := none }


/-! ## Helper lemmas -/

theorem clamp_bounds (n : Int) :
    1 ≤ max 1 (min n 200) ∧ max 1 (min n 200) ≤ 200 :=
  ⟨le_max_left 1 _, max_le (by norm_num) (min_le_right _ _)⟩

theorem jsOrNull_ne_empty (o : Option String) : jsOrNull o ≠ some "" := by
  match o with
  | none => simp [jsOrNull]
  | some s =>
    by_cases h : s = "" <;> simp [jsOrNull, h]

/-! ## C1 — limit normalization -/

/-- C1 counterexample: the claim says `limit="0"` yields 1, but
`parseInt("0") || 20` takes the default (0 is falsy), so the builder's
limit for `"0"` is 20, not 1. -/
theorem buildLim_zero_cex : buildLim (some "0") = 20 ∧ buildLim (some "0") ≠ 1 := by
  constructor <;> decide

/-- C1 (amended): for every raw limit input the resulting limit is an
integer in [1,200]; a parse that fails — or parses to 0, which is falsy —
defaults to 20; out-of-range values are clamped; `"0"` yields 20, `"500"`
yields 200, `"abc"` yields 20. -/
theorem buildLim_bounds (raw : Option String) :
    (1 ≤ buildLim raw ∧ buildLim raw ≤ 200)
    ∧ buildLim (some "0") = 20
    ∧ buildLim (some "500") = 200
    ∧ buildLim (some "abc") = 20
    ∧ buildLim none = 20 := by
  refine ⟨?_, by decide, by decide, by decide, by decide⟩
  show 1 ≤ max 1 (min _ 200) ∧ max 1 (min _ 200) ≤ 200
  exact clamp_bounds _

/-! ## C8 — response envelope -/

/-- C8: on success the response is the full formatted item list with
`next_page: null` and `stat: "ok"`; on any upstream failure it is
`{stat: "error", message}` (a shape with no items field); every response
is exactly one of the two shapes. -/
theorem mapFeed_envelope :
    (∀ rset : Option (List ProviderRecord),
      mapFeed (.ok rset) = .success (feedItems (rset.getD [])) none "0.01s" "ok")
    ∧ (∀ m : Option String,
      mapFeed (.err m) = .failure "error" (jsOr m "Internal server error"))
    ∧ (∀ o : QueryOutcome,
      (∃ items, mapFeed o = .success items none "0.01s" "ok")
      ∨ (∃ msg, mapFeed o = .failure "error" msg)) := by
  refine ⟨fun _ => rfl, fun _ => rfl, fun o => ?_⟩
  cases o with
  | ok rset => exact Or.inl ⟨feedItems (rset.getD []), rfl⟩
  | err m => exact Or.inr ⟨jsOr m "Internal server error", rfl⟩

/-! ## C10 — generated_in is a constant -/

/-- C10: the `generated_in` field of every success response is the
hardcoded literal `"0.01s"`, independent of the result set; no response
carries any other value. -/
theorem generatedIn_constant :
    (∀ rset : Option (List ProviderRecord),
      generatedIn (mapFeed (.ok rset)) = some "0.01s")
    ∧ (∀ o : QueryOutcome,
      generatedIn (mapFeed o) = none ∨ generatedIn (mapFeed o) = some "0.01s") := by
  refine ⟨fun _ => rfl, fun o => ?_⟩
  cases o with
  | ok rset => exact Or.inr rfl
  | err m => exact Or.inl rfl

theorem dropWhile_dropWhile (p : Char → Bool) (l : List Char) :
    (l.dropWhile p).dropWhile p = l.dropWhile p := by
  cases h : l.dropWhile p with
  | nil => simp
  | cons a t =>
    have ha := List.head?_dropWhile_not p l
    rw [h] at ha
    simp only [List.head?_cons] at ha
    have ha' : p a = false := ha
    simp [List.dropWhile_cons, ha']

theorem jsTrimData_idem (l : List Char) :
    jsTrimData (jsTrimData l) = jsTrimData l := by
  unfold jsTrimData
  set A := l.dropWhile wsChar with hA
  set B := A.reverse.dropWhile wsChar with hB
  have h1 : B.reverse.dropWhile wsChar = B.reverse := by
    cases hBr : B.reverse with
    | nil => simp
    | cons c t =>
      have hBne : B ≠ [] := by
        intro h0
        rw [h0] at hBr
        simp at hBr
      have hc : B.getLast? = some c := by
        rw [List.getLast?_eq_head?_reverse, hBr, List.head?_cons]
      have h2 : A.reverse = A.reverse.takeWhile wsChar ++ B := by
        rw [hB]
        exact (List.takeWhile_append_dropWhile wsChar A.reverse).symm
      have h3 : A.reverse.getLast? = some c := by
        rw [h2, List.getLast?_append, hc]
        rfl
      have h5 : A.head? = some c := by
        rw [← List.getLast?_reverse, h3]
      have h6 := List.head?_dropWhile_not wsChar l
      rw [← hA, h5] at h6
      have h6' : wsChar c = false := h6
      simp [List.dropWhile_cons, h6']
  rw [h1, List.reverse_reverse, hB, dropWhile_dropWhile]

theorem isZip_jsTrim (s : String) : isZip (jsTrim s) = isZip s := by
  show zipMatch (jsTrimData (jsTrimData s.data)) = zipMatch (jsTrimData s.data)
  rw [jsTrimData_idem]

theorem char_toUpper_fixed (c : Char) : c.toUpper.toUpper = c.toUpper := by
  have low : ∀ d : Char, d.toNat < 97 → d.toUpper = d := by
    intro d hd
    show (if d.toNat ≥ 97 ∧ d.toNat ≤ 122 then Char.ofNat (d.toNat - 32) else d) = d
    rw [if_neg (by omega)]
  by_cases h : c.toNat ≥ 97 ∧ c.toNat ≤ 122
  · have hup : c.toUpper = Char.ofNat (c.toNat - 32) := by
      show (if c.toNat ≥ 97 ∧ c.toNat ≤ 122 then Char.ofNat (c.toNat - 32) else c) = _
      rw [if_pos h]
    have hv : Nat.isValidChar (c.toNat - 32) := Or.inl (by omega)
    have ht : (Char.ofNat (c.toNat - 32)).toNat = c.toNat - 32 := by
      unfold Char.ofNat
      rw [dif_pos hv]
      rfl
    rw [hup]
    apply low
    rw [ht]
    omega
  · have hup : c.toUpper = c := by
      show (if c.toNat ≥ 97 ∧ c.toNat ≤ 122 then Char.ofNat (c.toNat - 32) else c) = c
      rw [if_neg h]
    rw [hup]
    exact hup

theorem zip_take_facts (l : List Char) (h : zipMatch l = true) :
    (l.take 5).length = 5 ∧ (l.take 5).all Char.isDigit = true := by
  unfold zipMatch at h
  rw [Bool.or_eq_true] at h
  cases h with
  | inl h =>
    rw [Bool.and_eq_true] at h
    obtain ⟨hlen, hall⟩ := h
    have hlen' : l.length = 5 := by simpa using hlen
    refine ⟨by simp [List.length_take, hlen'], ?_⟩
    rw [List.all_eq_true] at hall ⊢
    intro x hx
    exact hall x (List.mem_of_mem_take hx)
  | inr h =>
    rw [Bool.and_eq_true, Bool.and_eq_true, Bool.and_eq_true] at h
    obtain ⟨⟨⟨hlen, htake⟩, _⟩, _⟩ := h
    have hlen' : l.length = 10 := by simpa using hlen
    exact ⟨by simp [List.length_take, hlen'], htake⟩

theorem parse_zip_branch (s : String) (hz : isZip s = true) :
    parseLocation (some s) = ⟨some ⟨(jsTrimData s.data).take 5⟩, none, none⟩ := by
  have hs : s ≠ "" := by
    intro h0
    subst h0
    exact absurd hz (by decide)
  have hz' : isZip (jsTrim s) = true := by rw [isZip_jsTrim]; exact hz
  simp only [parseLocation]
  rw [if_neg hs]
  simp only [hz']
  rfl

theorem parse_nonzip_branch (s : String) (hs : s ≠ "") (hz : isZip s = false) :
    parseLocation (some s) = cityStateSplitModel s := by
  have hz' : isZip (jsTrim s) = false := by rw [isZip_jsTrim]; exact hz
  simp only [parseLocation]
  rw [if_neg hs]
  simp only [hz']
  rfl

theorem state_opt_facts (l : List Char) (st : String)
    (h : (if (l.map Char.toUpper).take 2 = [] then none
          else some (⟨(l.map Char.toUpper).take 2⟩ : String)) = some st) :
    st ≠ "" ∧ st.length ≤ 2 ∧ ∀ c ∈ st.data, c.toUpper = c := by
  by_cases hc : (l.map Char.toUpper).take 2 = []
  · rw [if_pos hc] at h
    exact absurd h (by simp)
  · rw [if_neg hc] at h
    have hst : st = ⟨(l.map Char.toUpper).take 2⟩ := (Option.some.inj h).symm
    subst hst
    refine ⟨?_, ?_, ?_⟩
    · intro h0
      apply hc
      have h1 := congrArg String.data h0
      simpa using h1
    · show ((l.map Char.toUpper).take 2).length ≤ 2
      exact List.length_take_le 2 _
    · intro c hcmem
      have hcmem' : c ∈ l.map Char.toUpper := List.mem_of_mem_take hcmem
      obtain ⟨x, hx, rfl⟩ := List.mem_map.mp hcmem'
      exact char_toUpper_fixed x

/-! ## C4 — ParsedLocation invariants -/

/-- C4 counterexample: the claim says `state`, if present, is exactly 2
uppercase letters; for input "Austin, 7" the code produces the one-digit
state "7". -/
theorem parse_state_shape_cex :
    (parseLocation (some "Austin, 7")).state = some "7"
    ∧ ¬((("7" : String).length = 2) ∧ ("7" : String).data.all Char.isUpper = true) := by
  refine ⟨by decide, by decide⟩

/-- C4 (amended): for every input, at most one of the zip and city/state
branches of the ParsedLocation is populated; `state` if present is a
non-empty string of at most 2 characters, each fixed under uppercasing
(it can be shorter than 2 and need not be a letter); `zip5` if present is
exactly 5 digits. -/
theorem parseLocation_invariants (input : Option String) :
    ((parseLocation input).zip5 ≠ none →
      (parseLocation input).city = none ∧ (parseLocation input).state = none)
    ∧ (∀ st : String, (parseLocation input).state = some st →
        st ≠ "" ∧ st.length ≤ 2 ∧ ∀ c ∈ st.data, c.toUpper = c)
    ∧ (∀ z : String, (parseLocation input).zip5 = some z →
        z.length = 5 ∧ z.data.all Char.isDigit = true) := by
  cases input with
  | none =>
    refine ⟨fun _ => ⟨rfl, rfl⟩, ?_, ?_⟩
    · intro st hst
      simp [parseLocation] at hst
    · intro z hz0
      simp [parseLocation] at hz0
  | some s =>
    by_cases hs : s = ""
    · subst hs
      refine ⟨fun _ => ⟨rfl, rfl⟩, ?_, ?_⟩
      · intro st hst
        simp [parseLocation] at hst
      · intro z hz0
        simp [parseLocation] at hz0
    · cases hz : isZip s with
      | true =>
        rw [parse_zip_branch s hz]
        refine ⟨fun _ => ⟨rfl, rfl⟩, ?_, ?_⟩
        · intro st hst
          simp at hst
        · intro z hz0
          have hzz : z = ⟨(jsTrimData s.data).take 5⟩ := (Option.some.inj hz0).symm
          subst hzz
          exact ⟨(zip_take_facts (jsTrimData s.data) hz).1,
                 (zip_take_facts (jsTrimData s.data) hz).2⟩
      | false =>
        rw [parse_nonzip_branch s hs hz]
        unfold cityStateSplitModel
        refine ⟨fun h => absurd rfl h, ?_, ?_⟩
        · intro st hst
          exact state_opt_facts _ st hst
        · intro z hz0
          simp at hz0

/-- Concrete instantiation of `parseLocation_invariants`: the city/state
conjunct at "Dallas, tx" and the zip conjunct at "73301-1234". -/
theorem parseLocation_invariants_witness :
    ((parseLocation (some "Dallas, tx")).state = some "TX"
      ∧ (("TX" : String) ≠ "" ∧ ("TX" : String).length ≤ 2
          ∧ ∀ c ∈ ("TX" : String).data, c.toUpper = c))
    ∧ ((parseLocation (some "73301-1234")).zip5 = some "73301"
      ∧ (("73301" : String).length = 5
          ∧ ("73301" : String).data.all Char.isDigit = true)) :=
  ⟨⟨by decide, (parseLocation_invariants (some "Dallas, tx")).2.1 "TX" (by decide)⟩,
   ⟨by decide, (parseLocation_invariants (some "73301-1234")).2.2 "73301" (by decide)⟩⟩

/-! ## C3 — city/state splitting -/

/-- C3 counterexample: the claim says the input is split on the FIRST
comma with the state taken from the whole right part; on
"Austin, T, X" the code instead splits on every comma and takes the
second segment, producing state "T" where the first-comma reading gives
"T," (first two characters of "T, X"). -/
theorem parse_first_comma_cex :
    parseLocation (some "Austin, T, X") = ⟨none, some "Austin", some "T"⟩
    ∧ cityStateFirstCommaModel "Austin, T, X" = ⟨none, some "Austin", some "T,"⟩
    ∧ parseLocation (some "Austin, T, X") ≠ cityStateFirstCommaModel "Austin, T, X" := by
  refine ⟨by decide, by decide, by decide⟩

/-- C3 (amended): for every non-empty, non-zip location string, parse
splits the input on EVERY comma and keeps the first two trimmed segments:
city is the first segment (or null if empty), state is the second segment
uppercased and truncated to its first 2 characters (or null if
empty/absent), segments after the second are discarded; a comma-less
input like "Austin" yields city "Austin" and state null. -/
theorem parse_city_state_split (s : String) (hs : s ≠ "") (hz : isZip s = false) :
    parseLocation (some s) = cityStateSplitModel s
    ∧ parseLocation (some "Austin") = ⟨none, some "Austin", none⟩
    ∧ parseLocation (some "Dallas, tx") = ⟨none, some "Dallas", some "TX"⟩ :=
  ⟨parse_nonzip_branch s hs hz, by decide, by decide⟩

/-- Concrete instantiation of `parse_city_state_split` at "Austin, T, X". -/
theorem parse_city_state_split_witness :
    (("Austin, T, X" : String) ≠ "" ∧ isZip "Austin, T, X" = false)
    ∧ parseLocation (some "Austin, T, X") = cityStateSplitModel "Austin, T, X" :=
  ⟨⟨by decide, by decide⟩,
   (parse_city_state_split "Austin, T, X" (by decide) (by decide)).1⟩

/-! ## C9 — zip recognition -/

/-- C9: for every location string whose trimmed form matches
`^\d{5}(-\d{4})?$`, parse returns the first 5 characters of the trimmed
input as `zip5` — 5 digits, the +4 suffix discarded — with no city and
no state. -/
theorem parse_zip_claim (s : String)
    (h : zipMatch (jsTrimData s.data) = true) :
    parseLocation (some s) = ⟨some ⟨(jsTrimData s.data).take 5⟩, none, none⟩
    ∧ ((jsTrimData s.data).take 5).length = 5
    ∧ ((jsTrimData s.data).take 5).all Char.isDigit = true :=
  ⟨parse_zip_branch s h, (zip_take_facts _ h).1, (zip_take_facts _ h).2⟩

/-- Concrete instantiation of `parse_zip_claim` at " 73301-1234 ". -/
theorem parse_zip_claim_witness :
    zipMatch (jsTrimData (" 73301-1234 " : String).data) = true
    ∧ (parseLocation (some " 73301-1234 ")
        = ⟨some ⟨(jsTrimData (" 73301-1234 " : String).data).take 5⟩, none, none⟩
      ∧ ((jsTrimData (" 73301-1234 " : String).data).take 5).length = 5
      ∧ ((jsTrimData (" 73301-1234 " : String).data).take 5).all Char.isDigit = true) :=
  ⟨by decide, parse_zip_claim " 73301-1234 " (by decide)⟩

/-! ## C5 — FilterSpec fields -/

/-- C5 counterexample: the claim says the FilterSpec's category is the
TRIMMED input category; the code binds `category || null` untrimmed, so
input " Cardiology " is passed through with its surrounding spaces. -/
theorem filter_category_cex :
    (buildFilter ⟨none, some " Cardiology ", none, none⟩).category
      = some " Cardiology "
    ∧ jsTrim " Cardiology " = "Cardiology"
    ∧ (buildFilter ⟨none, some " Cardiology ", none, none⟩).category
        ≠ some (jsTrim " Cardiology ") := by
  refine ⟨by decide, by decide, by decide⟩

/-- C5 (amended): the category field of the built FilterSpec is the raw
input category passed through unchanged when non-empty (absent or empty
input giving null), and every non-null string field of the FilterSpec is
non-empty — but not necessarily trimmed. -/
theorem filter_fields (rq : RawQuery) :
    (buildFilter rq).category = jsOrNull rq.category
    ∧ (buildFilter rq).category ≠ some ""
    ∧ (buildFilter rq).textQuery ≠ some ""
    ∧ (buildFilter rq).zip5 ≠ some ""
    ∧ (buildFilter rq).city ≠ some ""
    ∧ (buildFilter rq).state ≠ some "" := by
  refine ⟨rfl, jsOrNull_ne_empty _, ?_, jsOrNull_ne_empty _,
    jsOrNull_ne_empty _, jsOrNull_ne_empty _⟩
  show (match rq.q with
        | some s => if s = "" then none else some ("%" ++ s ++ "%")
        | none => none) ≠ some ""
  cases rq.q with
  | none => simp
  | some s =>
    by_cases h : s = ""
    · simp [h]
    · show (if s = "" then none else some ("%" ++ s ++ "%")) ≠ some ""
      rw [if_neg h]
      intro hcon
      have h1 := Option.some.inj hcon
      have h2 := congrArg String.data h1
      simp at h2

/-! ## C2 — HTML escaping of content -/

theorem escData_append (a b : List Char) :
    escData (a ++ b) = escData a ++ escData b := by
  simp [escData, replAllData, List.flatMap_append]

theorem escData_single (c : Char) : escData [c] = escChar c := by
  by_cases h1 : c = '&'
  · subst h1; decide
  · by_cases h2 : c = '<'
    · subst h2; decide
    · by_cases h3 : c = '>'
      · subst h3; decide
      · by_cases h4 : c = '"'
        · subst h4; decide
        · by_cases h5 : c = '\''
          · subst h5; decide
          · simp [escData, replAllData, escChar, h1, h2, h3, h4, h5]

theorem escData_eq_flatMap (l : List Char) : escData l = l.flatMap escChar := by
  induction l with
  | nil => rfl
  | cons c t ih =>
    have h : c :: t = [c] ++ t := rfl
    rw [h, escData_append, escData_single, ih, List.flatMap_append]
    simp [List.flatMap_cons]

theorem noMarkup_escChar (c : Char) : noMarkup (escChar c) = true := by
  by_cases h1 : c = '&'
  · subst h1; decide
  · by_cases h2 : c = '<'
    · subst h2; decide
    · by_cases h3 : c = '>'
      · subst h3; decide
      · by_cases h4 : c = '"'
        · subst h4; decide
        · by_cases h5 : c = '\''
          · subst h5; decide
          · simp [noMarkup, escChar, h1, h2, h3, h4, h5]

theorem noMarkup_escData (l : List Char) : noMarkup (escData l) = true := by
  rw [escData_eq_flatMap]
  induction l with
  | nil => rfl
  | cons c t ih =>
    rw [List.flatMap_cons]
    simp only [noMarkup, List.all_append, Bool.and_eq_true]
    exact ⟨noMarkup_escChar c, ih⟩

/-- C2: every user-derived text embedded in the `content` fragment —
title, category, city/state string — passes through `esc`, which replaces
each occurrence of `&`, `<`, `>`, `"`, `'` by its entity (the five
sequential global replaces amount to the per-character table `escChar`);
consequently no escaped segment contains a raw `<`, `>`, `"` or `'`, and a
record whose title and category contain `<script>` yields a `content`
without any raw `<script>`, only the escaped `&lt;script&gt;`. -/
theorem content_escaping :
    (∀ s : String, esc s = ⟨s.data.flatMap escChar⟩)
    ∧ (∀ s : String, noMarkup (esc s).data = true)
    ∧ (∀ (r : ProviderRecord) (idx : Nat),
        (formatItem r idx).content
          = "<div><strong>" ++ esc (titleOf r) ++ "</strong><br>"
            ++ esc (jsOr r.Category "") ++ " - " ++ esc (cityStOf r)
            ++ "<br><a href=\"" ++ detailUrl idx
            ++ "\" target=\"_blank\">View Details</a></div>")
    ∧ containsL "<script>".data (formatItem scriptRecord 0).content.data = false
    ∧ containsL "&lt;script&gt;".data (formatItem scriptRecord 0).content.data = true
    ∧ esc "<script>" = "&lt;script&gt;" := by
  refine ⟨?_, ?_, fun r idx => rfl, by decide, by decide, by decide⟩
  · intro s
    exact congrArg String.mk (escData_eq_flatMap s.data)
  · intro s
    exact noMarkup_escData s.data

/-! ## C6 — title and summary formatting -/

theorem string_append_assoc (a b c : String) : a ++ b ++ c = a ++ (b ++ c) := by
  apply String.ext
  simp [List.append_assoc]

/-- C6: the item's title is the organization name, or the literal
"Unnamed Facility" when the name is absent or empty; the summary is
"{category or 'Healthcare Facility'} in {citySt}", the " in {citySt}"
suffix omitted entirely when citySt is empty; the spec's example record
(empty name, null category, Plano / TX) formats to title
"Unnamed Facility" and summary "Healthcare Facility in Plano, TX". -/
theorem title_summary_claim (r : ProviderRecord) (idx : Nat) :
    ((r.Provider_Organization_Name = none ∨ r.Provider_Organization_Name = some "") →
      (formatItem r idx).title = "Unnamed Facility")
    ∧ (∀ s : String, r.Provider_Organization_Name = some s → s ≠ "" →
      (formatItem r idx).title = s)
    ∧ (cityStOf r = "" →
      (formatItem r idx).summary = jsOr r.Category "Healthcare Facility")
    ∧ (cityStOf r ≠ "" →
      (formatItem r idx).summary
        = jsOr r.Category "Healthcare Facility" ++ " in " ++ cityStOf r)
    ∧ (formatItem planoRecord 0).title = "Unnamed Facility"
    ∧ (formatItem planoRecord 0).summary = "Healthcare Facility in Plano, TX" := by
  refine ⟨?_, ?_, ?_, ?_, by decide, by decide⟩
  · intro h
    show titleOf r = "Unnamed Facility"
    rcases h with h | h <;> simp [titleOf, jsOr, h]
  · intro s hs hne
    show titleOf r = s
    simp [titleOf, jsOr, hs, hne]
  · intro h
    show summaryOf r = _
    simp [summaryOf, h]
  · intro h
    show summaryOf r = _
    rw [string_append_assoc]
    simp [summaryOf, h]

/-- Concrete instantiation of `title_summary_claim` at the Plano record:
its organization name is the empty string and its citySt is non-empty. -/
theorem title_summary_claim_witness :
    ((planoRecord.Provider_Organization_Name = none
        ∨ planoRecord.Provider_Organization_Name = some "")
      ∧ (formatItem planoRecord 0).title = "Unnamed Facility")
    ∧ (cityStOf planoRecord ≠ ""
      ∧ (formatItem planoRecord 0).summary
          = jsOr planoRecord.Category "Healthcare Facility" ++ " in "
            ++ cityStOf planoRecord) :=
  ⟨⟨Or.inr (by decide), (title_summary_claim planoRecord 0).1 (Or.inr (by decide))⟩,
   ⟨by decide, (title_summary_claim planoRecord 0).2.2.2.1 (by decide)⟩⟩

/-! ## C7 — sequential ids and detail URLs -/

theorem feedItemsFrom_length (k : Nat) (rs : List ProviderRecord) :
    (feedItemsFrom k rs).length = rs.length := by
  induction rs generalizing k with
  | nil => rfl
  | cons r t ih => simp [feedItemsFrom, ih]

theorem feedItemsFrom_map_id (k : Nat) (rs : List ProviderRecord) :
    (feedItemsFrom k rs).map (fun it => it.id) = List.range' (k + 1) rs.length := by
  induction rs generalizing k with
  | nil => rfl
  | cons r t ih =>
    simp only [feedItemsFrom, List.map_cons, List.length_cons, List.range'_succ]
    exact congrArg (List.cons (k + 1)) (ih (k + 1))

theorem feedItemsFrom_getD (k : Nat) (rs : List ProviderRecord) (i : Nat)
    (h : i < rs.length) :
    (feedItemsFrom k rs).getD i default = formatItem (rs.getD i default) (k + i) := by
  induction rs generalizing k i with
  | nil => exact absurd h (Nat.not_lt_zero i)
  | cons r t ih =>
    cases i with
    | zero => rfl
    | succ j =>
      have hj : j < t.length := Nat.lt_of_succ_lt_succ h
      have harith : k + 1 + j = k + (j + 1) := by omega
      calc (feedItemsFrom k (r :: t)).getD (j + 1) default
          = (feedItemsFrom (k + 1) t).getD j default := rfl
        _ = formatItem (t.getD j default) (k + 1 + j) := ih (k + 1) j hj
        _ = formatItem ((r :: t).getD (j + 1) default) (k + (j + 1)) := by
            rw [harith]; rfl

/-- C7: for every ordered result sequence of N records, the formatted
items' ids are exactly 1..N in order — no gaps, no repeats — each item's
id equals its 1-based rank, and its detail URL is templated with that
same rank. -/
theorem feed_item_ids (rs : List ProviderRecord) :
    (feedItems rs).map (fun it => it.id) = List.range' 1 rs.length
    ∧ ((feedItems rs).map (fun it => it.id)).Nodup
    ∧ ∀ i : Nat, i < rs.length →
        ((feedItems rs).getD i default).id = i + 1
        ∧ ((feedItems rs).getD i default).url
            = "https://findcare.dev/facility/" ++ toString (i + 1) := by
  have hmap : (feedItems rs).map (fun it => it.id) = List.range' 1 rs.length :=
    feedItemsFrom_map_id 0 rs
  refine ⟨hmap, ?_, ?_⟩
  · rw [hmap]
    exact List.nodup_range' 1 rs.length
  · intro i h
    have hg : (feedItems rs).getD i default = formatItem (rs.getD i default) i := by
      have := feedItemsFrom_getD 0 rs i h
      rwa [Nat.zero_add] at this
    rw [hg]
    exact ⟨rfl, rfl⟩

/-- Concrete instantiation of `feed_item_ids` on a two-record list at
rank position 1 (the second item, id 2). -/
theorem feed_item_ids_witness :
    1 < ([planoRecord, scriptRecord] : List ProviderRecord).length
    ∧ (((feedItems [planoRecord, scriptRecord]).getD 1 default).id = 2
      ∧ ((feedItems [planoRecord, scriptRecord]).getD 1 default).url
          = "https://findcare.dev/facility/" ++ toString 2) :=
  ⟨by decide, (feed_item_ids [planoRecord, scriptRecord]).2.2 1 (by decide)⟩
